import Mathlib

/-!
Shallow embedding of the PlanetProfile Layer Propagation and MoI Matching
Engine, translated from `src/Thermodynamics/LayerPropagators.py` and
`src/Thermodynamics/FromLiterature/HydroEOS.py`.  Machine floats are modelled
as rationals; the external libraries (numpy, scipy, SeaFreeze) are modelled by
their documented semantics where the repository code calls into them.
-/

namespace PlanetProfile

/- ------------------------------------------------------------------ -/
/- Basic list helpers modelling the numpy primitives used by the code. -/
/- ------------------------------------------------------------------ -/

/-- Model of `np.min` on a nonempty array (0 on an empty list, unused). -/
def listMin : List ℚ → ℚ
  | [] => 0
  | x :: xs => xs.foldl min x

/-- Model of `np.max` on a nonempty array (0 on an empty list, unused). -/
def listMax : List ℚ → ℚ
  | [] => 0
  | x :: xs => xs.foldl max x

/-- Model of `np.diff`: consecutive differences of an array. -/
def npDiff : List ℚ → List ℚ
  | [] => []
  | [_] => []
  | a :: b :: rest => (b - a) :: npDiff (b :: rest)

/-- Model of `np.mean(np.diff(xs))`; rational division by zero yields 0 for
arrays with fewer than two samples (numpy would give nan there; no claim is
settled on that degenerate path). -/
def meanDiff (xs : List ℚ) : ℚ := (npDiff xs).sum / ((npDiff xs).length : ℚ)

/-- Model of `np.linspace a b n` (endpoint included, n evenly spaced samples). -/
def linspace (a b : ℚ) (n : ℕ) : List ℚ :=
  if n ≤ 1 then List.replicate n a
  else (List.range n).map (fun i : ℕ => a + (b - a) * (i : ℚ) / ((n : ℚ) - 1))

/-- Model of `np.arange a b s` for positive step: points `a + s*i` strictly
below `b` (the stop value is excluded). -/
def arange (a b s : ℚ) : List ℚ :=
  if 0 < s ∧ a < b then
    (List.range (⌈(b - a) / s⌉).toNat).map (fun i : ℕ => a + s * (i : ℚ))
  else []

/-- Association-list lookup (model of a Python dict read). -/
def alookup {K β : Type} [DecidableEq K] : List (K × β) → K → Option β
  | [], _ => none
  | (k0, v0) :: rest, k => if k = k0 then some v0 else alookup rest k

/-- Association-list insert-or-replace (model of a Python dict write). -/
def ainsert {K β : Type} [DecidableEq K] : List (K × β) → K → β → List (K × β)
  | [], k, v => [(k, v)]
  | (k0, v0) :: rest, k, v =>
      if k = k0 then (k, v) :: rest else (k0, v0) :: ainsert rest k v

/- ------------------------------------------------------------------ -/
/- Phase tag conversion (HydroEOS.py, PhaseConv / PhaseInv).           -/
/- ------------------------------------------------------------------ -/

/-- Modelled from the spec: `Constants.phaseClath` lives in
`Utilities/defineStructs`, which is not among the provided sources; the value
30 is pinned by the caller `LayerPropagators.py` line 23
(`Planet.phase[:Planet.Steps.nClath] = 30  # Clathrate layers`). -/
def phaseClath : ℤ := 30

/-- Modelled from the spec: `Constants.phaseSil` is not among the provided
sources; the value 50 is pinned by `LayerPropagators.py` line 353
(`Planet.phase[...] = 50` for silicates). -/
def phaseSil : ℤ := 50

/-- Modelled from the spec: `Constants.phaseFe` is not among the provided
sources; the value 100 is pinned by `LayerPropagators.py` line 354
(`Planet.phase[...] = 100` for the core). -/
def phaseFe : ℤ := 100

/-- Translation of `PhaseConv` (HydroEOS.py lines 374-403): convert a phase
integer into a SeaFreeze-compatible string, raising `ValueError` (modelled as
`.error`) for IDs with no definition. -/
def PhaseConv (phase : ℤ) : Except String String :=
  if phase = 0 then .ok "water1"
  else if |phase| = 1 then .ok "Ih"
  else if |phase| = 2 then .ok "II"
  else if |phase| = 3 then .ok "III"
  else if |phase| = 5 then .ok "V"
  else if |phase| = 6 then .ok "VI"
  else if |phase| = phaseClath then .ok "Clath"
  else if phaseSil ≤ phase ∧ phase < phaseSil + 10 then .ok "Sil"
  else if phaseFe ≤ phase then .ok "Fe"
  else .error "PhaseConv does not have a definition for this phase ID"

/-- Translation of `PhaseInv` (HydroEOS.py lines 406-435): convert a phase
string into a phase integer, raising `ValueError` for unknown strings. -/
def PhaseInv (phaseStr : String) : Except String ℤ :=
  if phaseStr = "water1" then .ok 0
  else if phaseStr = "Ih" then .ok 1
  else if phaseStr = "II" then .ok 2
  else if phaseStr = "III" then .ok 3
  else if phaseStr = "V" then .ok 5
  else if phaseStr = "VI" then .ok 6
  else if phaseStr = "Clath" then .ok phaseClath
  else if phaseStr = "Sil" then .ok phaseSil
  else if phaseStr = "Fe" then .ok phaseFe
  else .error "PhaseInv does not have a definition for this phase string"

/-- Whether an `Except` result is an error (a raised `ValueError`). -/
def exceptIsErr {ε α : Type} : Except ε α → Bool
  | .error _ => true
  | .ok _ => false

/- ------------------------------------------------------------------ -/
/- Convective re-convergence control flow (LayerPropagators.py,        -/
/- IceLayers lines 60-70 and IceIIIUnderplate lines 200-210).          -/
/- ------------------------------------------------------------------ -/

/-- Translation of the convective re-convergence control flow shared by
`IceLayers` (lines 60-70) and `IceIIIUnderplate` (lines 200-210): record the
pre-correction shell-bottom depth `zb s`, run the convection step once, and
run it exactly once more when the relative depth change exceeds
`zbChangeTol_frac`.  Returns the final state together with the number of times
the convection step was invoked. -/
def convectRecheck {α : Type} (step : α → α) (zb : α → ℚ) (tol : ℚ) (s : α) :
    α × ℕ :=
  let zbOld := zb s
  let s1 := step s
  if tol < |zb s1 - zbOld| / zb s1 then (step s1, 2) else (s1, 1)

/- ------------------------------------------------------------------ -/
/- MoI matching: trade-off band and best-match selection               -/
/- (LayerPropagators.py, CalcMoIConstantRho lines 435-462 and          -/
/- CalcMoIWithEOS lines 577-599; both run the same selection code).    -/
/- ------------------------------------------------------------------ -/

/-- Translation of the trade-off set filter shared by `CalcMoIConstantRho`
(lines 435-437) and `CalcMoIWithEOS` (lines 577-579): the indices of the
candidates whose computed C/MR² lies strictly inside the measured band
`(Cmeasured - Cuncertainty, Cmeasured + Cuncertainty)`. -/
def CMR2inds (CMR2 : List ℚ) (Cmeasured Cuncertainty : ℚ) : List ℕ :=
  (List.range CMR2.length).filter
    (fun i => decide (Cmeasured - Cuncertainty < CMR2.getD i 0) &&
              decide (CMR2.getD i 0 < Cmeasured + Cuncertainty))

/-- Model of `np.argmin`: the index of the first minimal element of a
nonempty array (0 on an empty array, unused). -/
def argminIdx : List ℚ → ℕ
  | [] => 0
  | [_] => 0
  | x :: y :: rest =>
      let j := argminIdx (y :: rest)
      if (y :: rest).getD j 0 < x then j + 1 else 0

/-- Translation of the best-match selection (`CalcMoIConstantRho` lines
445-450 and `CalcMoIWithEOS` lines 587-592): build
`CMR2diff = np.abs(CMR2[CMR2inds] - Cmeasured)`, take `np.argmin(CMR2diff)`
and map it back to the Planet array index `iCMR2`. -/
def iCMR2 (CMR2 : List ℚ) (Cmeasured Cuncertainty : ℚ) : ℕ :=
  let inds := CMR2inds CMR2 Cmeasured Cuncertainty
  let CMR2diff := inds.map (fun i => |CMR2.getD i 0 - Cmeasured|)
  inds.getD (argminIdx CMR2diff) 0

/- ------------------------------------------------------------------ -/
/- Iron core configuration selection (LayerPropagators.py,             -/
/- IronCoreLayers lines 754-760 and 798-805).                          -/
/- ------------------------------------------------------------------ -/

/-- Translation of the cumulative total mass of one core configuration in
`IronCoreLayers`: `MAbove_kg` starts at the mass above the core-top silicate
layer (line 783) and accumulates each core shell mass through the `k` loop
(line 786); `Mtot_kg = MAbove_kg + thisMLayerCore_kg[:,-1]` (line 800) is
therefore the starting mass plus the sum of all `nCore` core shell masses. -/
def coreMtot (MAboveSil : ℚ) (MLayerCore : ℕ → ℚ) (nCore : ℕ) : ℚ :=
  MAboveSil + (Finset.range nCore).sum MLayerCore

/-- Per-configuration total mass in `IronCoreLayers`: configuration `j`
replaces silicate layers from index `iCoreStart + j` downward by core. -/
def IronCoreMtot (MAboveSil : ℕ → ℚ) (MLayerCore : ℕ → ℕ → ℚ)
    (nCore j : ℕ) : ℚ :=
  coreMtot (MAboveSil j) (MLayerCore j) nCore

/-- Translation of
`next(ii[0] for ii,val in np.ndenumerate(Mtot_kg) if val < Planet.Bulk.M_kg)`
(`IronCoreLayers` line 801): scan indices upward from `i` with the given fuel
and return the first index whose value is below `Mbody`. -/
def firstUndershootFrom (Mtot : ℕ → ℚ) (Mbody : ℚ) : ℕ → ℕ → Option ℕ
  | _, 0 => none
  | i, fuel + 1 =>
      if Mtot i < Mbody then some i
      else firstUndershootFrom Mtot Mbody (i + 1) fuel

/-- `iCoreMatch`: the first of the `n` core configurations whose cumulative
total mass drops below the body mass (`IronCoreLayers` line 801). -/
def iCoreMatch (Mtot : ℕ → ℚ) (Mbody : ℚ) (n : ℕ) : Option ℕ :=
  firstUndershootFrom Mtot Mbody 0 n

/- ------------------------------------------------------------------ -/
/- Hydrostatic layer recursion (LayerPropagators.py, IceIConduct       -/
/- lines 139-147, IceIIIUnderplate lines 186-194, OceanLayers lines    -/
/- 300-308; the loop body is identical in the three propagators).      -/
/- ------------------------------------------------------------------ -/

/-- One layer of the propagated profile: depth, radius, gravity and
cumulative mass above, as assigned by the layer loops. -/
structure LayerState where
  z : ℚ
  r : ℚ
  g : ℚ
  MAbove : ℚ
deriving DecidableEq

/-- Translation of the shared hydrostatic layer loop body
(`IceIConduct` lines 141-147, and identically `IceIIIUnderplate` lines
188-194 and `OceanLayers` lines 301-308): the depth grows by
`dP·10⁶ / g / rho`, the radius is `R - z`, the shell mass
`4/3·pi·rho·(r_prev³ - r³)` accumulates into the mass above, and gravity is
recomputed as `G·(M - MAbove)/r²`.  `np.pi` enters only as a constant factor
and is passed as the parameter `piV` so the model stays in exact rational
arithmetic. -/
def hydroStep (piV G R M : ℚ) (s : LayerState) (rho dP : ℚ) : LayerState :=
  let z := s.z + dP * 1000000 / s.g / rho
  let r := R - z
  let MLayer := 4 / 3 * piV * rho * (s.r ^ 3 - r ^ 3)
  let MAbove := s.MAbove + MLayer
  ⟨z, r, G * (M - MAbove) / r ^ 2, MAbove⟩

/-- The trajectory of layer states produced by the layer loops, surface
state first, then one state per `(rho, dP)` layer input. -/
def hydroStates (piV G R M : ℚ) (s0 : LayerState) :
    List (ℚ × ℚ) → List LayerState
  | [] => [s0]
  | l :: ls => s0 :: hydroStates piV G R M (hydroStep piV G R M s0 l.1 l.2) ls

/- ------------------------------------------------------------------ -/
/- Freeze-pressure boundary solver (HydroEOS.py, GetPfreeze lines      -/
/- 309-345).  scipy.optimize.root_scalar with a bracket is modelled as -/
/- bisection on a sign change with scipy defaults xtol = 2e-12 and     -/
/- maxiter = 100.                                                      -/
/- ------------------------------------------------------------------ -/

/-- scipy `root_scalar` default absolute tolerance `xtol` = 2e-12. -/
def xtolDefault : ℚ := 2 / 10 ^ 12

/-- scipy `root_scalar` default iteration budget `maxiter` = 100. -/
def maxiterDefault : ℕ := 100

/-- Bisection on a sign-change bracket (model of scipy's bracketed root
solver): halve the bracket keeping the half across which the objective
changes sign, until the bracket is narrower than `xtol` or the iteration
budget is exhausted, and return the final bracket midpoint. -/
def bisect (f : ℚ → ℚ) (xtol : ℚ) : ℕ → ℚ → ℚ → ℚ
  | 0, lo, hi => (lo + hi) / 2
  | fuel + 1, lo, hi =>
      if hi - lo ≤ xtol then (lo + hi) / 2
      else
        if f ((lo + hi) / 2) * f hi < 0 then bisect f xtol fuel ((lo + hi) / 2) hi
        else bisect f xtol fuel lo ((lo + hi) / 2)

/-- Model of `GetZero = root_scalar(f, bracket=[a, b])` (HydroEOS.py line 4):
raises `ValueError` (modelled as `.error ()`) when `f(a)` and `f(b)` have the
same sign, otherwise converges to the sign change. -/
def GetZero (f : ℚ → ℚ) (a b : ℚ) : Except Unit ℚ :=
  if 0 < f a * f b then .error ()
  else .ok (bisect f xtolDefault maxiterDefault a b)

/-- Translation of `phaseChangeUnderplate = lambda P: 0.5 + (phaseTop -
oceanEOS.fn_phase(P, Tb_K))` (HydroEOS.py line 318); `fn_phase` is the phase
classifier at the fixed temperature `Tb_K`. -/
def phaseChangeUnderplate (fn_phase : ℚ → ℤ) (phaseTop : ℤ) (P : ℚ) : ℚ :=
  1 / 2 + ((phaseTop : ℚ) - (fn_phase P : ℚ))

/-- Translation of the non-underplate objective `lambda P: 0.5 - (phaseTop -
oceanEOS.fn_phase(P, Tb_K))` (HydroEOS.py line 327). -/
def phaseChangeDirect (fn_phase : ℚ → ℤ) (phaseTop : ℤ) (P : ℚ) : ℚ :=
  1 / 2 - ((phaseTop : ℚ) - (fn_phase P : ℚ))

/-- Outcome of `GetPfreeze`: a transition pressure, or `np.nan` (returned on
failure when `UNDERPLATE` is explicitly False). -/
inductive PfreezeOutcome
  | found (P_MPa : ℚ)
  | nan
deriving DecidableEq

/-- Errors raised by `GetPfreeze`: the underplating-inconsistency
`ValueError` (line 333) and the no-transition-pressure `ValueError`
(lines 338-339). -/
inductive PfreezeError
  | underplateInconsistent
  | noFreezePressureFound
deriving DecidableEq

/-- Translation of `GetPfreeze` (HydroEOS.py lines 309-345).  The source sets
`TRY_BOTH = True; UNDERPLATE = True` when `UNDERPLATE is None`, so
`UNDERPLATE.getD true` is the flag after that normalisation and
`UNDERPLATE.isNone` is `TRY_BOTH`.  On a failed first search the source
checks `if UNDERPLATE` *before* `elif TRY_BOTH`, so the fallback match below
is reachable only when the flag is False — exactly as in the source, where
that combination cannot arise. -/
def GetPfreeze (fn_phase : ℚ → ℤ) (phaseTop : ℤ)
    (PLower_MPa PUpper_MPa PRes_MPa : ℚ) (UNDERPLATE : Option Bool) :
    Except PfreezeError PfreezeOutcome :=
  match GetZero
      (if UNDERPLATE.getD true then phaseChangeUnderplate fn_phase phaseTop
       else phaseChangeDirect fn_phase phaseTop) PLower_MPa PUpper_MPa with
  | .ok root => .ok (.found (root + PRes_MPa / 5))
  | .error _ =>
      if UNDERPLATE.getD true then .error .underplateInconsistent
      else if UNDERPLATE.isNone then
        match GetZero (phaseChangeUnderplate fn_phase phaseTop)
            PLower_MPa PUpper_MPa with
        | .ok root => .ok (.found (root + PRes_MPa / 5))
        | .error _ => .error .noFreezePressureFound
      else .ok .nan

/-- Synthetic step phase classifier for the boundary round-trip property:
phase 0 (liquid) strictly below `Pstar`, phase 1 at and above it. -/
def stepPhase (Pstar P : ℚ) : ℤ := if P < Pstar then 0 else 1

/-- Synthetic classifier with surface ice phase 1 below the transition
pressure `Pstar` and liquid (0) at and above it: the generic melting
configuration for which only the non-underplate objective has a bracketed
sign change. -/
def iceToLiquidPhase (Pstar P : ℚ) : ℤ := if P < Pstar then 1 else 0

/- ------------------------------------------------------------------ -/
/- EOS cache (HydroEOS.py: CheckIfEOSLoaded lines 218-278, GetOceanEOS -/
/- lines 15-22, OceanEOSStruct lines 24-127, IceEOSStruct 139-167).    -/
/- ------------------------------------------------------------------ -/

/-- The `rangeLabel` of `CheckIfEOSLoaded`: the normal path builds the
f-string `min,max,meanstep` for P and T (lines 236-237); the union-rebuild
path overwrites it with a four-component bounds-only f-string (line 265).
The two string formats are modelled as distinct constructors. -/
inductive RangeLabel
  | full (Pmin Pmax dP Tmin Tmax dT : ℚ)
  | bounds (Pmin Pmax Tmin Tmax : ℚ)
deriving DecidableEq

/-- The cache key `EOSlabel = f'{compstr}{wOcean_ppt}{elecType}{rhoType}
{scalingType}'` (OceanEOSStruct line 26), modelled as the tuple of its
components rather than their concatenation. -/
structure EOSLabel where
  comp : String
  w_ppt : ℚ
  elecType : Option String
  rhoType : Option String
  scalingType : Option String
deriving DecidableEq

/-- The cache-relevant fields of a constructed EOS: bounds and mean steps
(OceanEOSStruct lines 35-40), the P/T arrays handed to the
`RectBivariateSpline` interpolant constructors (lines 120-123), and a
construction counter `eid` distinguishing separately constructed
instances. -/
structure EOSEntry where
  Pmin : ℚ
  Pmax : ℚ
  Tmin : ℚ
  Tmax : ℚ
  deltaP : ℚ
  deltaT : ℚ
  Ps : List ℚ
  Ts : List ℚ
  eid : ℕ
deriving DecidableEq

/-- `EOSlist`: the process-wide cache dictionaries `loaded` and `ranges`
(updated together at lines 126-127), plus the construction counter. -/
structure EOScache where
  loaded : List (EOSLabel × EOSEntry)
  ranges : List (EOSLabel × RangeLabel)
  nextId : ℕ
deriving DecidableEq

/-- The cache state at interpreter start: both dictionaries empty. -/
def emptyEOScache : EOScache := ⟨[], [], 0⟩

/-- The tuple returned by `CheckIfEOSLoaded`. -/
structure CheckResult where
  ALREADY_LOADED : Bool
  rangeLabel : RangeLabel
  outP : Option (List ℚ)
  outT : Option (List ℚ)
deriving DecidableEq

/-- Translation of `CheckIfEOSLoaded` (HydroEOS.py lines 218-278): exact
range-label match reuses the loaded EOS; otherwise containment of the
requested min/max P and T in the loaded bounds reuses it; otherwise the
union of the two ranges is regridded with `np.arange` (stop excluded) and a
rebuild is requested under the bounds-only range label. -/
def CheckIfEOSLoaded (c : EOScache) (label : EOSLabel) (P T : List ℚ) :
    CheckResult :=
  let rl : RangeLabel := .full (listMin P) (listMax P) (meanDiff P)
    (listMin T) (listMax T) (meanDiff T)
  match alookup c.loaded label, alookup c.ranges label with
  | some e, some storedRl =>
      if storedRl = rl then ⟨true, rl, none, none⟩
      else
        if listMin P < e.Pmin ∨ e.Pmax < listMax P ∨
            listMin T < e.Tmin ∨ e.Tmax < listMax T then
          let outP := arange (min (listMin P) e.Pmin)
            (max (listMax P) e.Pmax) (min (meanDiff P) e.deltaP)
          let outT := arange (min (listMin T) e.Tmin)
            (max (listMax T) e.Tmax) (min (meanDiff T) e.deltaT)
          ⟨false, .bounds (listMin outP) (listMax outP) (listMin outT)
            (listMax outT), some outP, some outT⟩
        else ⟨true, rl, none, none⟩
  | _, _ => ⟨false, rl, some P, some T⟩

/-- Errors raised inside `OceanEOSStruct.__init__`: the
not-yet-implemented `ValueError`s (NH3 at line 94, NaCl at line 115) and the
unsupported-composition `ValueError` (lines 117-118).  No other error is
raised by the constructor: in particular there is no degenerate-range
check. -/
inductive OceanEOSError
  | notImplemented (comp : String)
  | unsupportedComposition (comp : String)
deriving DecidableEq

/-- The observable result of a `GetOceanEOS` call: the updated cache, the
returned entry, and whether a new EOS instance was constructed (`false`
when an already-loaded instance is reused). -/
structure OceanEOSResult where
  cache : EOScache
  entry : EOSEntry
  rebuilt : Bool
deriving DecidableEq

/-- Fallback entry for a cache hit whose stored entry is missing; never
reached because `loaded` and `ranges` are written together. -/
def junkEntry : EOSEntry := ⟨0, 0, 0, 0, 0, 0, [], [], 0⟩

/-- The construction tail of `OceanEOSStruct.__init__` for a supported
composition (lines 35-40 and 120-127): derive bounds and mean steps from the
`CheckIfEOSLoaded` output arrays, hand those arrays to the interpolant
constructors, and store the new instance in `EOSlist.loaded` and
`EOSlist.ranges` under its label. -/
def buildOceanEOS (c : EOScache) (label : EOSLabel) (chk : CheckResult)
    (P T : List ℚ) : Except OceanEOSError OceanEOSResult :=
  let Ps := chk.outP.getD P
  let Ts := chk.outT.getD T
  let e : EOSEntry := ⟨listMin Ps, listMax Ps, listMin Ts, listMax Ts,
    meanDiff Ps, meanDiff Ts, Ps, Ts, c.nextId⟩
  .ok ⟨⟨ainsert c.loaded label e, ainsert c.ranges label chk.rangeLabel,
    c.nextId + 1⟩, e, true⟩

/-- Translation of `GetOceanEOS` plus `OceanEOSStruct.__init__`
(HydroEOS.py lines 15-127): consult the cache via `CheckIfEOSLoaded`; on a
hit return the stored instance and leave the cache unchanged; otherwise
dispatch on the composition exactly as the `__init__` if/elif chain does —
note that `wOcean_ppt == 0 or compstr == 'PureH2O'` (line 57) routes *any*
composition with zero salinity into the pure-water branch before the
NH3/NaCl/unknown errors can trigger.  The SeaFreeze/GSW/MgSO4 property
tables and `RectBivariateSpline` are external collaborators: the model
records the arrays handed to them and the derived bounds, which is all the
cache and range logic reads. -/
def GetOceanEOS (c : EOScache) (compstr : String) (wOcean_ppt : ℚ)
    (P T : List ℚ) (elecType rhoType scalingType : Option String) :
    Except OceanEOSError OceanEOSResult :=
  let label : EOSLabel := ⟨compstr, wOcean_ppt, elecType, rhoType,
    scalingType⟩
  let chk := CheckIfEOSLoaded c label P T
  if chk.ALREADY_LOADED then
    .ok ⟨c, (alookup c.loaded label).getD junkEntry, false⟩
  else
    if compstr = "none" ∨ (wOcean_ppt = 0 ∨ compstr = "PureH2O") ∨
        compstr = "Seawater" then
      buildOceanEOS c label chk P T
    else if compstr = "NH3" then .error (.notImplemented "NH3")
    else if compstr = "MgSO4" then
      buildOceanEOS c label chk P T
    else if compstr = "NaCl" then .error (.notImplemented "NaCl")
    else .error (.unsupportedComposition compstr)

/-- Translation of the short-array stretch in `IceEOSStruct.__init__`
(lines 157-162): an axis with at most 3 samples is replaced by an evenly
spaced array of triple the length over the same bounds. -/
def iceStretch (xs : List ℚ) : List ℚ :=
  if xs.length ≤ 3 then linspace (xs.headD 0) (xs.getLastD 0) (xs.length * 3)
  else xs

/-- Translation of the array preparation in `IceEOSStruct.__init__`
(lines 156-167): stretch each short axis, then — comparing the *original*
lengths `nPs` and `nTs` — append one near-duplicate temperature sample
(`T[-1] * 1.00001`) when the input arrays had identical length. -/
def IceEOSResample (P T : List ℚ) : List ℚ × List ℚ :=
  let P2 := iceStretch P
  let T2 := iceStretch T
  let T3 := if P.length = T.length
    then T2 ++ [T2.getLastD 0 * (100001 / 100000)] else T2
  (P2, T3)

/-- Concrete repeated-request scenario: the label of a pure-water ocean EOS
request (composition PureH2O, zero salinity, default electrical model). -/
def scnLabel : EOSLabel := ⟨"PureH2O", 0, none, none, none⟩

/-- Cache entry built by the seed request over P = [0, 10], T = [0, 5, 10]. -/
def scnEntry1 : EOSEntry := ⟨0, 10, 0, 10, 10, 5, [0, 10], [0, 5, 10], 0⟩

/-- Cache state after the seed request. -/
def scnCache1 : EOScache :=
  ⟨[(scnLabel, scnEntry1)], [(scnLabel, .full 0 10 10 0 10 5)], 1⟩

/-- Entry built by the union-rebuild for the wider request P = [0, 15]:
`np.arange` excludes its stop, so the regridded arrays are [0, 10] and
[0, 5] and the stored bounds fall short of the requested maxima. -/
def scnEntry2 : EOSEntry := ⟨0, 10, 0, 5, 10, 5, [0, 10], [0, 5], 1⟩

/-- Cache state after the first wide request. -/
def scnCache2 : EOScache :=
  ⟨[(scnLabel, scnEntry2)], [(scnLabel, .bounds 0 10 0 5)], 2⟩

/-- Entry built by the second, identical wide request: the same arrays
again, under a fresh construction. -/
def scnEntry3 : EOSEntry := ⟨0, 10, 0, 5, 10, 5, [0, 10], [0, 5], 2⟩

/-- Cache state after the second wide request. -/
def scnCache3 : EOScache :=
  ⟨[(scnLabel, scnEntry3)], [(scnLabel, .bounds 0 10 0 5)], 3⟩

end PlanetProfile

namespace PlanetProfile

/- ------------------------------------------------------------------ -/
/- Theorems.                                                           -/
/- ------------------------------------------------------------------ -/

/-- C10: `PhaseConv` and `PhaseInv` are mutually inverse on the supported
domain, but the claimed error behaviour fails: `PhaseConv` accepts the whole
silicate band and iron band.  This counterexample shows `PhaseConv 51`
succeeds (returning "Sil") although 51 is outside the claimed supported
integer set {0, ±1, ±2, ±3, ±5, ±6, ±30}. -/
theorem PhaseConv_silicate_band_no_error : PhaseConv 51 = .ok "Sil" := rfl

set_option maxHeartbeats 2000000 in
/-- C10 (amended): for each of the nine supported phase strings `s`,
`PhaseConv (PhaseInv s) = s`; for each supported ice/liquid integer `p` in
{0, ±1, ±2, ±3, ±5, ±6, ±30}, `PhaseInv (PhaseConv p) = |p|`; `PhaseConv`
errors exactly on the integers outside
{0, ±1, ±2, ±3, ±5, ±6, ±30} ∪ [50, 60) ∪ [100, ∞); and `PhaseInv` errors
exactly on strings other than the nine supported ones. -/
theorem PhaseConv_PhaseInv_round_trip :
    ((PhaseInv "water1").bind PhaseConv = .ok "water1" ∧
     (PhaseInv "Ih").bind PhaseConv = .ok "Ih" ∧
     (PhaseInv "II").bind PhaseConv = .ok "II" ∧
     (PhaseInv "III").bind PhaseConv = .ok "III" ∧
     (PhaseInv "V").bind PhaseConv = .ok "V" ∧
     (PhaseInv "VI").bind PhaseConv = .ok "VI" ∧
     (PhaseInv "Clath").bind PhaseConv = .ok "Clath" ∧
     (PhaseInv "Sil").bind PhaseConv = .ok "Sil" ∧
     (PhaseInv "Fe").bind PhaseConv = .ok "Fe") ∧
    (∀ p : ℤ, p = 0 ∨ |p| = 1 ∨ |p| = 2 ∨ |p| = 3 ∨ |p| = 5 ∨ |p| = 6 ∨
        |p| = 30 →
      (PhaseConv p).bind PhaseInv = .ok |p|) ∧
    (∀ p : ℤ, exceptIsErr (PhaseConv p) = true ↔
      ¬(p = 0 ∨ |p| = 1 ∨ |p| = 2 ∨ |p| = 3 ∨ |p| = 5 ∨ |p| = 6 ∨ |p| = 30 ∨
        (50 ≤ p ∧ p < 60) ∨ 100 ≤ p)) ∧
    (∀ s : String, exceptIsErr (PhaseInv s) = true ↔
      ¬(s = "water1" ∨ s = "Ih" ∨ s = "II" ∨ s = "III" ∨ s = "V" ∨
        s = "VI" ∨ s = "Clath" ∨ s = "Sil" ∨ s = "Fe")) := by
  refine ⟨⟨rfl, rfl, rfl, rfl, rfl, rfl, rfl, rfl, rfl⟩, ?_, ?_, ?_⟩
  · intro p hp
    rcases hp with h | h | h | h | h | h | h
    · subst h; rfl
    · rcases abs_eq (by norm_num : (0:ℤ) ≤ 1) |>.mp h with h1 | h1 <;> subst h1 <;> rfl
    · rcases abs_eq (by norm_num : (0:ℤ) ≤ 2) |>.mp h with h1 | h1 <;> subst h1 <;> rfl
    · rcases abs_eq (by norm_num : (0:ℤ) ≤ 3) |>.mp h with h1 | h1 <;> subst h1 <;> rfl
    · rcases abs_eq (by norm_num : (0:ℤ) ≤ 5) |>.mp h with h1 | h1 <;> subst h1 <;> rfl
    · rcases abs_eq (by norm_num : (0:ℤ) ≤ 6) |>.mp h with h1 | h1 <;> subst h1 <;> rfl
    · rcases abs_eq (by norm_num : (0:ℤ) ≤ 30) |>.mp h with h1 | h1 <;> subst h1 <;> rfl
  · intro p
    unfold PhaseConv phaseClath phaseSil phaseFe
    split_ifs with h0 h1 h2 h3 h5 h6 h30 hsil hfe <;>
      simp [exceptIsErr] <;> first | tauto | omega
  · intro s
    unfold PhaseInv
    split_ifs with h0 h1 h2 h3 h5 h6 h30 hsil hfe <;>
      simp only [exceptIsErr] <;> tauto

/-- C10 witness: the round-trip theorem applied at the concrete phase
integer -3 (ice III, underplate-tagged). -/
theorem PhaseConv_PhaseInv_round_trip_witness :
    (PhaseConv (-3)).bind PhaseInv = .ok |(-3 : ℤ)| :=
  PhaseConv_PhaseInv_round_trip.2.1 (-3) (by norm_num)

/-- C7: in the ice-shell integrator the convection step is re-run at most
once more after the first convective correction: it runs exactly twice when
the post-correction shell-bottom depth differs from the pre-correction depth
by more than the relative tolerance, and exactly once otherwise — never an
unbounded fixed-point iteration. -/
theorem convectRecheck_bounded {α : Type} (step : α → α) (zb : α → ℚ)
    (tol : ℚ) (s : α) :
    (convectRecheck step zb tol s).2 ≤ 2 ∧
    ((convectRecheck step zb tol s).2 = 2 ↔
      tol < |zb (step s) - zb s| / zb (step s)) ∧
    (convectRecheck step zb tol s).1 =
      (if tol < |zb (step s) - zb s| / zb (step s)
       then step (step s) else step s) := by
  unfold convectRecheck
  split_ifs with h <;> simp [h]

/-- Helper: `getD` of a mapped list at an in-range index, any defaults. -/
theorem list_getD_map {α β : Type} (f : α → β) (d' : β) (d : α) :
    ∀ (l : List α) (j : ℕ), j < l.length →
      (l.map f).getD j d' = f (l.getD j d) := by
  intro l
  induction l with
  | nil => intro j h; simp at h
  | cons a tl ih =>
      intro j h
      cases j with
      | zero => rfl
      | succ k => exact ih k (by simpa using h)

/-- Helper: `getD` at an in-range index is a member of the list. -/
theorem list_getD_mem {α : Type} (d : α) :
    ∀ (l : List α) (j : ℕ), j < l.length → l.getD j d ∈ l := by
  intro l
  induction l with
  | nil => intro j h; simp at h
  | cons a tl ih =>
      intro j h
      cases j with
      | zero => simp
      | succ k => exact List.mem_cons_of_mem a (ih k (by simpa using h))

/-- Helper: every member of a list is a `getD` at some in-range index. -/
theorem list_mem_getD {α : Type} (d : α) :
    ∀ (l : List α) (a : α), a ∈ l → ∃ k, k < l.length ∧ l.getD k d = a := by
  intro l
  induction l with
  | nil => intro a h; simp at h
  | cons x tl ih =>
      intro a h
      rcases List.mem_cons.mp h with h1 | h1
      · exact ⟨0, by simp, h1.symm⟩
      · obtain ⟨k, hk, hka⟩ := ih a h1
        exact ⟨k + 1, by simpa using hk, hka⟩

/-- Helper: `argminIdx` of a nonempty list is an in-range index. -/
theorem argminIdx_lt_length :
    ∀ (l : List ℚ), l ≠ [] → argminIdx l < l.length := by
  intro l
  induction l with
  | nil => intro h; exact absurd rfl h
  | cons x tl ih =>
      intro _
      cases tl with
      | nil => simp [argminIdx]
      | cons y rest =>
          have htl := ih (by simp)
          simp only [argminIdx]
          split_ifs with h
          · simpa using Nat.succ_lt_succ htl
          · simp

/-- Helper: the element at `argminIdx` is a lower bound for every element. -/
theorem argminIdx_min :
    ∀ (l : List ℚ) (k : ℕ), k < l.length →
      l.getD (argminIdx l) 0 ≤ l.getD k 0 := by
  intro l
  induction l with
  | nil => intro k h; simp at h
  | cons x tl ih =>
      intro k hk
      cases tl with
      | nil =>
          cases k with
          | zero => simp [argminIdx]
          | succ k0 => simp at hk
      | cons y rest =>
          simp only [argminIdx]
          split_ifs with h
          · -- tail minimum is strictly below the head
            cases k with
            | zero => exact le_of_lt h
            | succ k0 =>
                simpa using ih k0 (by simpa using hk)
          · -- head is the minimum
            push_neg at h
            cases k with
            | zero => simp
            | succ k0 =>
                have := ih k0 (by simpa using hk)
                calc ((x :: y :: rest).getD 0 0) = x := rfl
                  _ ≤ (y :: rest).getD (argminIdx (y :: rest)) 0 := h
                  _ ≤ (y :: rest).getD k0 0 := this
                  _ = (x :: y :: rest).getD (k0 + 1) 0 := rfl

/-- C1: in both MoI-matching modes, every candidate in the reported trade-off
set `CMR2inds` has `|C/MR² - Cmeasured| ≤ Cuncertainty`, and whenever the set
is nonempty the selected best match `iCMR2` belongs to the set and minimises
the absolute difference from the measured value over all candidates. -/
theorem CalcMoI_band_membership_and_best (CMR2 : List ℚ) (m u : ℚ) :
    (∀ i ∈ CMR2inds CMR2 m u, |CMR2.getD i 0 - m| ≤ u) ∧
    (CMR2inds CMR2 m u ≠ [] →
      iCMR2 CMR2 m u ∈ CMR2inds CMR2 m u ∧
      ∀ j ∈ CMR2inds CMR2 m u,
        |CMR2.getD (iCMR2 CMR2 m u) 0 - m| ≤ |CMR2.getD j 0 - m|) := by
  constructor
  · intro i hi
    have hmem := List.mem_filter.mp hi
    have hcond := hmem.2
    simp only [Bool.and_eq_true, decide_eq_true_eq] at hcond
    have h1 := hcond.1
    have h2 := hcond.2
    exact abs_le.mpr ⟨by linarith, by linarith⟩
  · intro hne
    set inds := CMR2inds CMR2 m u with hinds
    set f : ℕ → ℚ := fun i => |CMR2.getD i 0 - m| with hf
    have hlenmap : (inds.map f).length = inds.length := List.length_map _ _
    have hmapne : inds.map f ≠ [] := by
      intro h
      exact hne (List.map_eq_nil_iff.mp h)
    have hargmin : argminIdx (inds.map f) < inds.length := by
      have := argminIdx_lt_length (inds.map f) hmapne
      omega
    have hsel : iCMR2 CMR2 m u = inds.getD (argminIdx (inds.map f)) 0 := rfl
    constructor
    · rw [hsel]
      exact list_getD_mem 0 inds _ hargmin
    · intro j hj
      obtain ⟨k, hk, hkj⟩ := list_mem_getD 0 inds j hj
      have hmin := argminIdx_min (inds.map f) k (by omega)
      rw [list_getD_map f 0 0 inds _ hargmin] at hmin
      rw [list_getD_map f 0 0 inds k hk] at hmin
      rw [hkj] at hmin
      rw [hsel]
      exact hmin

/-- Helper: concrete evaluation of the trade-off set for the C1 witness. -/
theorem CMR2inds_concrete_eval : CMR2inds [0, 350, 0] 346 5 = [1] := by
  norm_num [CMR2inds, List.range_succ, List.filter_append, List.filter_cons]

/-- C1 witness: the band-membership and best-match theorem applied to the
concrete candidate list [0, 350, 0] with measured value 346 ± 5: index 1 is
in the band, and the selected match is in the band and minimal. -/
theorem CalcMoI_band_membership_and_best_witness :
    |([0, 350, 0] : List ℚ).getD 1 0 - 346| ≤ 5 ∧
    iCMR2 [0, 350, 0] 346 5 ∈ CMR2inds [0, 350, 0] 346 5 :=
  ⟨(CalcMoI_band_membership_and_best [0, 350, 0] 346 5).1 1
      (by rw [CMR2inds_concrete_eval]; simp),
   ((CalcMoI_band_membership_and_best [0, 350, 0] 346 5).2
      (by rw [CMR2inds_concrete_eval]; simp)).1⟩


/-- Helper: specification of the upward scan `firstUndershootFrom`. -/
theorem firstUndershootFrom_spec (f : ℕ → ℚ) (M : ℚ) :
    ∀ (fuel i j : ℕ), firstUndershootFrom f M i fuel = some j →
      i ≤ j ∧ j < i + fuel ∧ f j < M ∧ ∀ k, i ≤ k → k < j → M ≤ f k := by
  intro fuel
  induction fuel with
  | zero => intro i j h; simp [firstUndershootFrom] at h
  | succ n ih =>
      intro i j h
      by_cases hi : f i < M
      · simp only [firstUndershootFrom, if_pos hi] at h
        obtain rfl : i = j := Option.some_injective _ h
        exact ⟨le_refl i, by omega, hi, fun k hk1 hk2 => absurd (lt_of_le_of_lt hk1 hk2) (lt_irrefl i)⟩
      · simp only [firstUndershootFrom, if_neg hi] at h
        obtain ⟨h1, h2, h3, h4⟩ := ih (i + 1) j h
        refine ⟨by omega, by omega, h3, fun k hk1 hk2 => ?_⟩
        rcases Nat.eq_or_lt_of_le hk1 with hk | hk
        · subst hk; exact le_of_not_lt hi
        · exact h4 k hk hk2

/-- C4: in EOS-consistent MoI-matching mode with an iron core, the selected
core configuration `iCoreMatch` is the first one, scanning configurations in
index order (which runs from the core's maximum-permitted radius inward,
since the silicate radius grid is strictly decreasing), whose cumulative
total mass drops below the body mass; every earlier configuration still has
total mass at or above the body mass (first-undershoot, not nearest-match). -/
theorem IronCoreLayers_first_undershoot
    (MAboveSil : ℕ → ℚ) (MLayerCore : ℕ → ℕ → ℚ) (nCore n : ℕ) (Mbody : ℚ)
    (rSil : ℕ → ℚ) (iCoreStart i : ℕ)
    (hsel : iCoreMatch (IronCoreMtot MAboveSil MLayerCore nCore) Mbody n =
      some i)
    (hdec : ∀ a b : ℕ, a < b → rSil b < rSil a) :
    i < n ∧
    IronCoreMtot MAboveSil MLayerCore nCore i < Mbody ∧
    (∀ j < i, Mbody ≤ IronCoreMtot MAboveSil MLayerCore nCore j) ∧
    (∀ j1 j2 : ℕ, j1 < j2 →
      rSil (iCoreStart + j2) < rSil (iCoreStart + j1)) := by
  obtain ⟨h1, h2, h3, h4⟩ := firstUndershootFrom_spec
    (IronCoreMtot MAboveSil MLayerCore nCore) Mbody n 0 i hsel
  refine ⟨by omega, h3, fun j hj => h4 j (Nat.zero_le j) hj, ?_⟩
  intro j1 j2 hj
  exact hdec (iCoreStart + j1) (iCoreStart + j2) (by omega)

/-- C4 witness: the first-undershoot theorem applied to a concrete set of
three core configurations with total masses 10, 9, 5 against body mass 6:
configuration 2 is selected. -/
theorem IronCoreLayers_first_undershoot_witness :
    IronCoreMtot (fun j => [10, 9, 5].getD j 0) (fun _ _ => 0) 1 2 < 6 ∧
    (∀ j < 2, (6:ℚ) ≤ IronCoreMtot (fun j => [10, 9, 5].getD j 0) (fun _ _ => 0) 1 j) :=
  let T := IronCoreLayers_first_undershoot
    (fun j => [10, 9, 5].getD j 0) (fun _ _ => 0) 1 3 6
    (fun k => 100 - (k : ℚ)) 0 2
    (by norm_num [iCoreMatch, firstUndershootFrom, IronCoreMtot, coreMtot])
    (fun a b h => by
      have hab : (a : ℚ) < (b : ℚ) := by exact_mod_cast h
      show (100 : ℚ) - (b : ℚ) < 100 - (a : ℚ)
      linarith)
  ⟨T.2.1, T.2.2.1⟩

/-- Helper: one hydrostatic layer step strictly decreases the radius,
does not decrease the cumulative mass above, and preserves the depth/radius
relation `r = R - z`, provided density, pressure increment, pi and the
incoming gravity are positive. -/
theorem hydroStep_decr (piV G R M : ℚ) (s : LayerState) (rho dP : ℚ)
    (hpi : 0 < piV) (hrho : 0 < rho) (hdP : 0 < dP) (hgpos : 0 < s.g)
    (hzr : s.r = R - s.z) :
    (hydroStep piV G R M s rho dP).r < s.r ∧
    s.MAbove ≤ (hydroStep piV G R M s rho dP).MAbove ∧
    (hydroStep piV G R M s rho dP).r = R - (hydroStep piV G R M s rho dP).z := by
  have hz : s.z < s.z + dP * 1000000 / s.g / rho := by
    have hpos : 0 < dP * 1000000 / s.g / rho :=
      div_pos (div_pos (by linarith) hgpos) hrho
    linarith
  have hr : R - (s.z + dP * 1000000 / s.g / rho) < s.r := by
    rw [hzr]; linarith
  refine ⟨hr, ?_, rfl⟩
  have hcube : (R - (s.z + dP * 1000000 / s.g / rho)) ^ 3 < s.r ^ 3 := by
    have hmono := Odd.strictMono_pow (R := ℚ) (by decide : Odd 3)
    simpa using hmono hr
  have hML : 0 ≤ 4 / 3 * piV * rho *
      (s.r ^ 3 - (R - (s.z + dP * 1000000 / s.g / rho)) ^ 3) := by
    have : 0 ≤ s.r ^ 3 - (R - (s.z + dP * 1000000 / s.g / rho)) ^ 3 := by
      linarith
    positivity
  show s.MAbove ≤ s.MAbove + 4 / 3 * piV * rho *
      (s.r ^ 3 - (R - (s.z + dP * 1000000 / s.g / rho)) ^ 3)
  linarith

/-- Helper: a trajectory starts with its initial state. -/
theorem hydroStates_head (piV G R M : ℚ) (s0 : LayerState) :
    ∀ (layers : List (ℚ × ℚ)), ∃ tl,
      hydroStates piV G R M s0 layers = s0 :: tl := by
  intro layers
  cases layers with
  | nil => exact ⟨[], rfl⟩
  | cons l ls => exact ⟨_, rfl⟩

/-- C8: for every layer profile produced by the hydrostatic layer recursion
from a surface state with `r = R - z`, under positive pi, densities,
pressure increments, and gravities along the trajectory, the radius sequence
is strictly decreasing and the cumulative mass-above sequence is
non-decreasing from the surface toward the centre. -/
theorem LayerArrays_monotone (piV G R M : ℚ) :
    ∀ (layers : List (ℚ × ℚ)) (s0 : LayerState),
      0 < piV → s0.r = R - s0.z →
      (∀ p ∈ layers, 0 < p.1 ∧ 0 < p.2) →
      (∀ s ∈ hydroStates piV G R M s0 layers, 0 < s.g) →
      List.Chain' (fun a b => b.r < a.r) (hydroStates piV G R M s0 layers) ∧
      List.Chain' (fun a b => a.MAbove ≤ b.MAbove)
        (hydroStates piV G R M s0 layers) := by
  intro layers
  induction layers with
  | nil =>
      intro s0 _ _ _ _
      constructor <;> simp [hydroStates]
  | cons l ls ih =>
      intro s0 hpi hzr hrho hg
      have hg0 : 0 < s0.g := by
        apply hg
        obtain ⟨tl, htl⟩ := hydroStates_head piV G R M s0 (l :: ls)
        rw [htl]; exact List.mem_cons_self _ _
      have hrho0 := hrho l (List.mem_cons_self _ _)
      have hstep := hydroStep_decr piV G R M s0 l.1 l.2 hpi hrho0.1 hrho0.2 hg0 hzr
      set s1 := hydroStep piV G R M s0 l.1 l.2 with hs1
      have hrest : ∀ s ∈ hydroStates piV G R M s1 ls, 0 < s.g := by
        intro s hs
        apply hg
        show s ∈ hydroStates piV G R M s0 (l :: ls)
        simp only [hydroStates]
        exact List.mem_cons_of_mem s0 hs
      have hrho1 : ∀ p ∈ ls, 0 < p.1 ∧ 0 < p.2 :=
        fun p hp => hrho p (List.mem_cons_of_mem l hp)
      obtain ⟨ihr, ihm⟩ := ih s1 hpi hstep.2.2 hrho1 hrest
      obtain ⟨tl, htl⟩ := hydroStates_head piV G R M s1 ls
      constructor
      · show List.Chain' _ (s0 :: hydroStates piV G R M s1 ls)
        rw [htl]
        rw [htl] at ihr
        exact List.chain'_cons.mpr ⟨hstep.1, ihr⟩
      · show List.Chain' _ (s0 :: hydroStates piV G R M s1 ls)
        rw [htl]
        rw [htl] at ihm
        exact List.chain'_cons.mpr ⟨hstep.2.1, ihm⟩

/-- Helper: concrete evaluation of a one-layer trajectory for the C8
witness. -/
theorem hydroStates_concrete_eval :
    hydroStates 3 1 2 1000000 ⟨0, 2, 1000000, 0⟩ [(1, 1)] =
      [⟨0, 2, 1000000, 0⟩, ⟨1, 1, 999972, 28⟩] := by
  norm_num [hydroStates, hydroStep]

/-- C8 witness: the monotonicity theorem applied to a concrete one-layer
profile with R = 2, M = 10⁶, surface gravity 10⁶, density 1 and pressure
increment 1. -/
theorem LayerArrays_monotone_witness :
    List.Chain' (fun a b => b.r < a.r)
      (hydroStates 3 1 2 1000000 ⟨0, 2, 1000000, 0⟩ [(1, 1)]) ∧
    List.Chain' (fun a b => a.MAbove ≤ b.MAbove)
      (hydroStates 3 1 2 1000000 ⟨0, 2, 1000000, 0⟩ [(1, 1)]) :=
  LayerArrays_monotone 3 1 2 1000000 [(1, 1)] ⟨0, 2, 1000000, 0⟩
    (by norm_num) (by norm_num)
    (by intro p hp; simp at hp; subst hp; exact ⟨one_pos, one_pos⟩)
    (by
      intro s hs
      rw [hydroStates_concrete_eval] at hs
      rcases List.mem_cons.mp hs with h | h
      · subst h; norm_num
      · rcases List.mem_cons.mp h with h1 | h1
        · subst h1; norm_num
        · simp at h1)


/-- Helper: the underplate objective over the 0-below/1-above step classifier
is a sign-changing step: +1/2 below `Pstar`, -1/2 at and above it. -/
theorem phaseChangeUnderplate_step (Pstar P : ℚ) :
    phaseChangeUnderplate (stepPhase Pstar) 0 P =
      if P < Pstar then 1 / 2 else -(1 / 2) := by
  unfold phaseChangeUnderplate stepPhase
  split_ifs <;> norm_num

/-- Helper: bisection on the step objective converges to within `xtol` of the
step location `Pstar`, for any bracket straddling `Pstar` whose width is at
most `xtol * 2 ^ fuel`. -/
theorem bisect_step_converges (Pstar xtol : ℚ) (hx : 0 < xtol) :
    ∀ (fuel : ℕ) (lo hi : ℚ), lo < Pstar → Pstar ≤ hi →
      hi - lo ≤ xtol * 2 ^ fuel →
      |bisect (phaseChangeUnderplate (stepPhase Pstar) 0) xtol fuel lo hi -
        Pstar| ≤ xtol := by
  intro fuel
  induction fuel with
  | zero =>
      intro lo hi hlo hhi hw
      simp only [bisect]
      rw [abs_le]
      constructor <;> [skip; skip] <;> [nlinarith [hw]; nlinarith [hw]]
  | succ n ih =>
      intro lo hi hlo hhi hw
      simp only [bisect]
      by_cases hnarrow : hi - lo ≤ xtol
      · rw [if_pos hnarrow, abs_le]
        constructor <;> nlinarith [hnarrow]
      · rw [if_neg hnarrow]
        have hhalf : hi - (lo + hi) / 2 = (hi - lo) / 2 := by ring
        have hhalf2 : (lo + hi) / 2 - lo = (hi - lo) / 2 := by ring
        have hwhalf : (hi - lo) / 2 ≤ xtol * 2 ^ n := by
          have : (2:ℚ) ^ (n + 1) = 2 * 2 ^ n := by ring
          nlinarith [hw]
        by_cases hmid : (lo + hi) / 2 < Pstar
        · rw [if_pos ?hcond]
          case hcond =>
            rw [phaseChangeUnderplate_step, phaseChangeUnderplate_step,
              if_pos hmid, if_neg (not_lt.mpr hhi)]
            norm_num
          exact ih ((lo + hi) / 2) hi hmid hhi (by linarith [hhalf])
        · rw [if_neg ?hcond2]
          case hcond2 =>
            rw [phaseChangeUnderplate_step, phaseChangeUnderplate_step,
              if_neg hmid, if_neg (not_lt.mpr hhi)]
            norm_num
          exact ih lo ((lo + hi) / 2) hlo (not_lt.mp hmid)
            (by linarith [hhalf2])

/-- C9: for the synthetic step classifier (0 below `Pstar`, 1 above),
`GetPfreeze` with the default unset underplate flag locates the boundary via
the sign-changing bracketed search: it succeeds for every bracket straddling
`Pstar` (width up to `xtol·2^100`, far beyond any physical pressure range),
returns the located root plus the positive offset `PRes/5`, and the returned
value is within one resolution step `PRes` of `Pstar` whenever the solver
tolerance satisfies `xtol ≤ 4/5·PRes`. -/
theorem GetPfreeze_boundary_round_trip (Pstar lo hi PRes : ℚ)
    (hlo : lo < Pstar) (hhi : Pstar ≤ hi) (hres : 0 < PRes)
    (hxtol : xtolDefault ≤ 4 / 5 * PRes)
    (hwidth : hi - lo ≤ xtolDefault * 2 ^ maxiterDefault) :
    ∃ root,
      GetZero (phaseChangeUnderplate (stepPhase Pstar) 0) lo hi = .ok root ∧
      GetPfreeze (stepPhase Pstar) 0 lo hi PRes none =
        .ok (.found (root + PRes / 5)) ∧
      0 < PRes / 5 ∧
      |root + PRes / 5 - Pstar| ≤ PRes := by
  have hxpos : (0:ℚ) < xtolDefault := by norm_num [xtolDefault]
  have hGZ : GetZero (phaseChangeUnderplate (stepPhase Pstar) 0) lo hi =
      .ok (bisect (phaseChangeUnderplate (stepPhase Pstar) 0) xtolDefault
        maxiterDefault lo hi) := by
    unfold GetZero
    rw [if_neg]
    rw [phaseChangeUnderplate_step, phaseChangeUnderplate_step,
      if_pos hlo, if_neg (not_lt.mpr hhi)]
    norm_num
  refine ⟨_, hGZ, ?_, by positivity, ?_⟩
  · unfold GetPfreeze
    have hflag : (none : Option Bool).getD true = true := rfl
    rw [hflag]
    simp only [if_true]
    rw [hGZ]
  · have hb := bisect_step_converges Pstar xtolDefault hxpos maxiterDefault
      lo hi hlo hhi hwidth
    rw [abs_le] at hb ⊢
    constructor <;> nlinarith [hb.1, hb.2]

/-- C9 witness: the boundary round-trip theorem applied at `Pstar = 50`,
bracket [0, 300], `PRes = 1/10`. -/
theorem GetPfreeze_boundary_round_trip_witness :
    ∃ root,
      GetZero (phaseChangeUnderplate (stepPhase 50) 0) 0 300 = .ok root ∧
      GetPfreeze (stepPhase 50) 0 0 300 (1 / 10) none =
        .ok (.found (root + 1 / 10 / 5)) ∧
      0 < (1 : ℚ) / 10 / 5 ∧
      |root + 1 / 10 / 5 - 50| ≤ 1 / 10 :=
  GetPfreeze_boundary_round_trip 50 0 300 (1 / 10)
    (by norm_num) (by norm_num) (by norm_num)
    (by norm_num [xtolDefault])
    (by norm_num [xtolDefault, maxiterDefault])

/-- C3: with the underplate flag unset, `GetPfreeze` forces the flag to True,
so when the underplate-mode objective has no sign change in the bracket the
function raises the underplating-inconsistency error immediately — the
`TRY_BOTH` fallback branch is unreachable and no second search is attempted —
even though (second conjunct) the same classifier admits a sign change for
the non-underplate objective, which succeeds when requested explicitly. -/
theorem GetPfreeze_unset_underplate_no_retry :
    GetPfreeze (iceToLiquidPhase 50) 1 0 300 (1 / 10) none =
      .error .underplateInconsistent ∧
    (∃ r, GetPfreeze (iceToLiquidPhase 50) 1 0 300 (1 / 10) (some false) =
      .ok (.found r)) := by
  have hup : ∀ P : ℚ, phaseChangeUnderplate (iceToLiquidPhase 50) 1 P =
      if P < 50 then 1 / 2 else 3 / 2 := by
    intro P; unfold phaseChangeUnderplate iceToLiquidPhase
    split_ifs <;> norm_num
  have hdir : ∀ P : ℚ, phaseChangeDirect (iceToLiquidPhase 50) 1 P =
      if P < 50 then 1 / 2 else -(1 / 2) := by
    intro P; unfold phaseChangeDirect iceToLiquidPhase
    split_ifs <;> norm_num
  constructor
  · have hGZ : GetZero (phaseChangeUnderplate (iceToLiquidPhase 50) 1) 0 300 =
        .error () := by
      unfold GetZero
      rw [if_pos]
      rw [hup 0, hup 300]
      norm_num
    unfold GetPfreeze
    have hflag : (none : Option Bool).getD true = true := rfl
    rw [hflag]
    simp only [if_true]
    rw [hGZ]
  · have hGZ : GetZero (phaseChangeDirect (iceToLiquidPhase 50) 1) 0 300 =
        .ok (bisect (phaseChangeDirect (iceToLiquidPhase 50) 1) xtolDefault
          maxiterDefault 0 300) := by
      unfold GetZero
      rw [if_neg]
      rw [hdir 0, hdir 300]
      norm_num
    refine ⟨bisect (phaseChangeDirect (iceToLiquidPhase 50) 1) xtolDefault
      maxiterDefault 0 300 + 1 / 10 / 5, ?_⟩
    unfold GetPfreeze
    have hflag : (some false : Option Bool).getD true = false := rfl
    rw [hflag]
    simp only [Bool.false_eq_true, if_false]
    rw [hGZ]


/-- Helper: `CheckIfEOSLoaded` on a label with no cached entry requests a
fresh build over the input arrays. -/
theorem CheckIfEOSLoaded_fresh (c : EOScache) (label : EOSLabel)
    (P T : List ℚ) (hfresh : alookup c.loaded label = none) :
    CheckIfEOSLoaded c label P T =
      ⟨false, .full (listMin P) (listMax P) (meanDiff P) (listMin T)
        (listMax T) (meanDiff T), some P, some T⟩ := by
  unfold CheckIfEOSLoaded
  rw [hfresh]

/-- Helper: on a label with no cached entry, `GetOceanEOS` raises exactly
when the salinity is nonzero and the composition is not one of the four
buildable ones, and a successful call returns a newly built entry whose
bounds, steps and interpolation arrays come from the request itself. -/
theorem GetOceanEOS_fresh_spec (c : EOScache) (compstr : String) (w : ℚ)
    (P T : List ℚ) (e r sc : Option String)
    (hfresh : alookup c.loaded ⟨compstr, w, e, r, sc⟩ = none) :
    (exceptIsErr (GetOceanEOS c compstr w P T e r sc) = true ↔
      (¬ w = 0 ∧ ¬(compstr = "none" ∨ compstr = "PureH2O" ∨
        compstr = "Seawater" ∨ compstr = "MgSO4"))) ∧
    (∀ res, GetOceanEOS c compstr w P T e r sc = .ok res →
      res.entry = ⟨listMin P, listMax P, listMin T, listMax T,
        meanDiff P, meanDiff T, P, T, c.nextId⟩ ∧ res.rebuilt = true) := by
  have hchk := CheckIfEOSLoaded_fresh c ⟨compstr, w, e, r, sc⟩ P T hfresh
  have hmain : GetOceanEOS c compstr w P T e r sc =
      (if compstr = "none" ∨ (w = 0 ∨ compstr = "PureH2O") ∨
          compstr = "Seawater" then
        .ok ⟨⟨ainsert c.loaded ⟨compstr, w, e, r, sc⟩
            ⟨listMin P, listMax P, listMin T, listMax T, meanDiff P,
              meanDiff T, P, T, c.nextId⟩,
          ainsert c.ranges ⟨compstr, w, e, r, sc⟩
            (.full (listMin P) (listMax P) (meanDiff P) (listMin T)
              (listMax T) (meanDiff T)), c.nextId + 1⟩,
          ⟨listMin P, listMax P, listMin T, listMax T, meanDiff P,
            meanDiff T, P, T, c.nextId⟩, true⟩
      else if compstr = "NH3" then .error (.notImplemented "NH3")
      else if compstr = "MgSO4" then
        .ok ⟨⟨ainsert c.loaded ⟨compstr, w, e, r, sc⟩
            ⟨listMin P, listMax P, listMin T, listMax T, meanDiff P,
              meanDiff T, P, T, c.nextId⟩,
          ainsert c.ranges ⟨compstr, w, e, r, sc⟩
            (.full (listMin P) (listMax P) (meanDiff P) (listMin T)
              (listMax T) (meanDiff T)), c.nextId + 1⟩,
          ⟨listMin P, listMax P, listMin T, listMax T, meanDiff P,
            meanDiff T, P, T, c.nextId⟩, true⟩
      else if compstr = "NaCl" then .error (.notImplemented "NaCl")
      else .error (.unsupportedComposition compstr)) := by
    simp only [GetOceanEOS, hchk, buildOceanEOS, Option.getD_some,
      Bool.false_eq_true, if_false]
  constructor
  · rw [hmain]
    split_ifs with h1 h2 h3 h4
    · simp only [exceptIsErr, Bool.false_eq_true, false_iff, not_and,
        not_not]
      intro hw
      rcases h1 with h | h | h
      · exact Or.inl h
      · rcases h with h | h
        · exact absurd h hw
        · exact Or.inr (Or.inl h)
      · exact Or.inr (Or.inr (Or.inl h))
    · subst h2
      simp only [exceptIsErr, true_iff]
      refine ⟨fun hw => h1 (Or.inr (Or.inl (Or.inl hw))), ?_⟩
      rintro (h | h | h | h) <;> exact absurd h (by decide)
    · subst h3
      simp only [exceptIsErr, Bool.false_eq_true, false_iff, not_and,
        not_not]
      intro _
      tauto
    · subst h4
      simp only [exceptIsErr, true_iff]
      refine ⟨fun hw => h1 (Or.inr (Or.inl (Or.inl hw))), ?_⟩
      rintro (h | h | h | h) <;> exact absurd h (by decide)
    · simp only [exceptIsErr, true_iff]
      refine ⟨fun hw => h1 (Or.inr (Or.inl (Or.inl hw))), ?_⟩
      rintro (h | h | h | h)
      · exact h1 (Or.inl h)
      · exact h1 (Or.inr (Or.inl (Or.inr h)))
      · exact h1 (Or.inr (Or.inr h))
      · exact h3 h
  · intro res hres
    rw [hmain] at hres
    split_ifs at hres with h1 h2 h3 h4 <;>
      (obtain rfl := Except.ok.inj hres; exact ⟨rfl, rfl⟩)


/-- Helper: a non-error `Except` value is an `ok`. -/
theorem exceptIsErr_false {ε α : Type} (x : Except ε α) :
    exceptIsErr x = false → ∃ a, x = .ok a := by
  cases x with
  | error err => simp [exceptIsErr]
  | ok a => exact fun _ => ⟨a, rfl⟩

/-- C5 (amended): when the requested label is not already cached,
`GetOceanEOS` fails with an unavailable-composition `ValueError` exactly when
the salinity is nonzero and the composition is outside
{none, PureH2O, Seawater, MgSO4} (zero salinity routes any composition to the
pure-water model, and NH3/NaCl are recognised but unimplemented); there is no
degenerate-range check; and every successful fresh construction returns an
EOS whose P/T bounds equal the requested min/max, i.e. valid over the
requested range. -/
theorem GetOceanEOS_error_taxonomy (c : EOScache) (compstr : String) (w : ℚ)
    (P T : List ℚ) (e r sc : Option String)
    (hfresh : alookup c.loaded ⟨compstr, w, e, r, sc⟩ = none) :
    (exceptIsErr (GetOceanEOS c compstr w P T e r sc) = true ↔
      (¬ w = 0 ∧ ¬(compstr = "none" ∨ compstr = "PureH2O" ∨
        compstr = "Seawater" ∨ compstr = "MgSO4"))) ∧
    (∀ res, GetOceanEOS c compstr w P T e r sc = .ok res →
      res.entry.Pmin = listMin P ∧ res.entry.Pmax = listMax P ∧
      res.entry.Tmin = listMin T ∧ res.entry.Tmax = listMax T) := by
  obtain ⟨hiff, hok⟩ := GetOceanEOS_fresh_spec c compstr w P T e r sc hfresh
  refine ⟨hiff, fun res hres => ?_⟩
  obtain ⟨hentry, _⟩ := hok res hres
  rw [hentry]
  exact ⟨rfl, rfl, rfl, rfl⟩

/-- C5 witness: the error-taxonomy theorem applied to a fresh Seawater
request at 35 ppt. -/
theorem GetOceanEOS_error_taxonomy_witness :
    alookup emptyEOScache.loaded ⟨"Seawater", 35, none, none, none⟩ = none ∧
    (exceptIsErr (GetOceanEOS emptyEOScache "Seawater" 35 [0, 10] [260, 280]
        none none none) = true ↔
      (¬ (35 : ℚ) = 0 ∧ ¬(("Seawater" : String) = "none" ∨
        ("Seawater" : String) = "PureH2O" ∨
        ("Seawater" : String) = "Seawater" ∨
        ("Seawater" : String) = "MgSO4"))) :=
  ⟨rfl, (GetOceanEOS_error_taxonomy emptyEOScache "Seawater" 35 [0, 10]
    [260, 280] none none none rfl).1⟩

/-- C5 counterexample: a degenerate pressure range (`max ≤ min`: both
samples equal 5 MPa) does not make `GetOceanEOS` fail — the constructor has
no `PhysicallyInvalidRange` check, refuting the claim that it fails whenever
the requested bounds are degenerate. -/
theorem GetOceanEOS_degenerate_range_no_failure :
    listMax [(5 : ℚ), 5] ≤ listMin [(5 : ℚ), 5] ∧
    ∃ res, GetOceanEOS emptyEOScache "PureH2O" 35 [5, 5] [270, 280]
      none none none = .ok res := by
  constructor
  · simp [listMin, listMax]
  · have hspec := GetOceanEOS_fresh_spec emptyEOScache "PureH2O" 35 [5, 5]
      [270, 280] none none none rfl
    have hne : ¬(exceptIsErr (GetOceanEOS emptyEOScache "PureH2O" 35 [5, 5]
        [270, 280] none none none) = true) := by
      intro hh
      exact (hspec.1.mp hh).2 (Or.inr (Or.inl rfl))
    have hfalse : exceptIsErr (GetOceanEOS emptyEOScache "PureH2O" 35 [5, 5]
        [270, 280] none none none) = false := by
      cases hcase : exceptIsErr (GetOceanEOS emptyEOScache "PureH2O" 35
          [5, 5] [270, 280] none none none) with
      | true => exact absurd hcase hne
      | false => rfl
    exact exceptIsErr_false _ hfalse

/-- Helper: `linspace` produces exactly `n` samples. -/
theorem linspace_length (a b : ℚ) (n : ℕ) : (linspace a b n).length = n := by
  unfold linspace
  split_ifs with h
  · simp
  · rw [List.length_map, List.length_range]

/-- C6 (amended): only the ice EOS constructor resamples: a P or T axis with
2 or 3 samples is stretched to triple its length (at least 4 samples) before
interpolant construction, axes with at least 4 samples are left unchanged,
and one near-duplicate temperature sample (`T[-1]·1.00001`) is appended
exactly when the input arrays have identical length; the ocean EOS
constructor performs no such resampling and hands the input arrays to its
interpolants unchanged. -/
theorem IceEOS_resample_short_arrays (P T : List ℚ)
    (hP : 2 ≤ P.length) (hT : 2 ≤ T.length) :
    (P.length ≤ 3 → (IceEOSResample P T).1.length = P.length * 3 ∧
      4 ≤ (IceEOSResample P T).1.length) ∧
    (4 ≤ P.length → (IceEOSResample P T).1 = P) ∧
    (T.length ≤ 3 → (iceStretch T).length = T.length * 3 ∧
      4 ≤ (iceStretch T).length) ∧
    (4 ≤ T.length → iceStretch T = T) ∧
    (P.length = T.length → (IceEOSResample P T).2 =
      iceStretch T ++ [(iceStretch T).getLastD 0 * (100001 / 100000)]) ∧
    (¬ P.length = T.length → (IceEOSResample P T).2 = iceStretch T) ∧
    (∀ (c : EOScache) (comp : String) (w : ℚ) (e r sc : Option String)
        (res : OceanEOSResult),
      alookup c.loaded ⟨comp, w, e, r, sc⟩ = none →
      GetOceanEOS c comp w P T e r sc = .ok res →
      res.entry.Ps = P ∧ res.entry.Ts = T) := by
  have hfst : (IceEOSResample P T).1 = iceStretch P := rfl
  have hstretchP : P.length ≤ 3 → (iceStretch P).length = P.length * 3 := by
    intro h
    unfold iceStretch
    rw [if_pos h, linspace_length]
  have hstretchT : T.length ≤ 3 → (iceStretch T).length = T.length * 3 := by
    intro h
    unfold iceStretch
    rw [if_pos h, linspace_length]
  refine ⟨?_, ?_, ?_, ?_, ?_, ?_, ?_⟩
  · intro h
    rw [hfst, hstretchP h]
    omega
  · intro h
    rw [hfst]
    unfold iceStretch
    rw [if_neg (by omega)]
  · intro h
    rw [hstretchT h]
    omega
  · intro h
    unfold iceStretch
    rw [if_neg (by omega)]
  · intro h
    simp only [IceEOSResample, if_pos h]
  · intro h
    simp only [IceEOSResample, if_neg h]
  · intro c comp w e r sc res hfresh hres
    obtain ⟨hentry, _⟩ :=
      (GetOceanEOS_fresh_spec c comp w P T e r sc hfresh).2 res hres
    rw [hentry]
    exact ⟨rfl, rfl⟩

/-- C6 witness: the resampling theorem applied to a 2-sample pressure axis
and a 3-sample temperature axis: the pressure axis is stretched to 6 ≥ 4
samples, and since the original lengths differ no extra temperature sample
is appended. -/
theorem IceEOS_resample_short_arrays_witness :
    ((IceEOSResample [1, 2] [3, 4, 5]).1.length =
        ([1, 2] : List ℚ).length * 3 ∧
      4 ≤ (IceEOSResample [1, 2] [3, 4, 5]).1.length) ∧
    (IceEOSResample [1, 2] [3, 4, 5]).2 = iceStretch [3, 4, 5] :=
  ⟨(IceEOS_resample_short_arrays [1, 2] [3, 4, 5] (by decide)
      (by decide)).1 (by decide),
   (IceEOS_resample_short_arrays [1, 2] [3, 4, 5] (by decide)
      (by decide)).2.2.2.2.2.1 (by decide)⟩

/-- C6 counterexample: the ocean EOS constructor receives a 2-sample
pressure axis and passes it to interpolant construction unchanged — still
shorter than the 4-sample minimum grid — refuting the claim that EOS
construction in general stretches short axes. -/
theorem OceanEOS_no_resampling :
    ∃ res, GetOceanEOS emptyEOScache "PureH2O" 0 [1, 2] [270, 280, 290]
        none none none = .ok res ∧
      res.entry.Ps = [1, 2] ∧ res.entry.Ps.length < 4 := by
  have hspec := GetOceanEOS_fresh_spec emptyEOScache "PureH2O" 0 [1, 2]
    [270, 280, 290] none none none rfl
  have hne : ¬(exceptIsErr (GetOceanEOS emptyEOScache "PureH2O" 0 [1, 2]
      [270, 280, 290] none none none) = true) := by
    intro hh
    exact (hspec.1.mp hh).1 rfl
  have hfalse : exceptIsErr (GetOceanEOS emptyEOScache "PureH2O" 0 [1, 2]
      [270, 280, 290] none none none) = false := by
    cases hcase : exceptIsErr (GetOceanEOS emptyEOScache "PureH2O" 0 [1, 2]
        [270, 280, 290] none none none) with
    | true => exact absurd hcase hne
    | false => rfl
  obtain ⟨res, hres⟩ := exceptIsErr_false _ hfalse
  obtain ⟨hentry, _⟩ := hspec.2 res hres
  refine ⟨res, hres, ?_, ?_⟩
  · rw [hentry]
  · rw [hentry]
    decide


/-- Helper: minimum of the seed pressure array. -/
theorem listMin_0_10 : listMin [(0 : ℚ), 10] = 0 := by
  norm_num [listMin, List.foldl, min_def]

/-- Helper: maximum of the seed pressure array. -/
theorem listMax_0_10 : listMax [(0 : ℚ), 10] = 10 := by
  norm_num [listMax, List.foldl, max_def]

/-- Helper: mean step of the seed pressure array. -/
theorem meanDiff_0_10 : meanDiff [(0 : ℚ), 10] = 10 := by
  norm_num [meanDiff, npDiff]

/-- Helper: minimum of the temperature array. -/
theorem listMin_0_5_10 : listMin [(0 : ℚ), 5, 10] = 0 := by
  norm_num [listMin, List.foldl, min_def]

/-- Helper: maximum of the temperature array. -/
theorem listMax_0_5_10 : listMax [(0 : ℚ), 5, 10] = 10 := by
  norm_num [listMax, List.foldl, max_def]

/-- Helper: mean step of the temperature array. -/
theorem meanDiff_0_5_10 : meanDiff [(0 : ℚ), 5, 10] = 5 := by
  norm_num [meanDiff, npDiff]

/-- Helper: minimum of the wide pressure array. -/
theorem listMin_0_15 : listMin [(0 : ℚ), 15] = 0 := by
  norm_num [listMin, List.foldl, min_def]

/-- Helper: maximum of the wide pressure array. -/
theorem listMax_0_15 : listMax [(0 : ℚ), 15] = 15 := by
  norm_num [listMax, List.foldl, max_def]

/-- Helper: mean step of the wide pressure array. -/
theorem meanDiff_0_15 : meanDiff [(0 : ℚ), 15] = 15 := by
  norm_num [meanDiff, npDiff]

/-- Helper: minimum of the regridded temperature array. -/
theorem listMin_0_5 : listMin [(0 : ℚ), 5] = 0 := by
  norm_num [listMin, List.foldl, min_def]

/-- Helper: maximum of the regridded temperature array. -/
theorem listMax_0_5 : listMax [(0 : ℚ), 5] = 5 := by
  norm_num [listMax, List.foldl, max_def]

/-- Helper: mean step of the regridded temperature array. -/
theorem meanDiff_0_5 : meanDiff [(0 : ℚ), 5] = 5 := by
  norm_num [meanDiff, npDiff]

/-- Helper: the union regrid of the pressure axis stops short of the
requested maximum 15 because `np.arange` excludes its stop value. -/
theorem arange_0_15_10 : arange 0 15 10 = [0, 10] := by
  have hc : (⌈(((15 : ℚ)) - 0) / 10⌉).toNat = 2 := by
    have h2 : ⌈((15 : ℚ) - 0) / 10⌉ = 2 := by
      rw [Int.ceil_eq_iff]
      constructor <;> norm_num
    rw [h2]; rfl
  rw [arange, if_pos (by norm_num), hc]
  rw [show List.range 2 = [0, 1] from rfl]
  norm_num

/-- Helper: the union regrid of the temperature axis likewise stops short
of its maximum 10. -/
theorem arange_0_10_5 : arange 0 10 5 = [0, 5] := by
  have hc : (⌈(((10 : ℚ)) - 0) / 5⌉).toNat = 2 := by
    have h2 : ⌈((10 : ℚ) - 0) / 5⌉ = 2 := by
      rw [Int.ceil_eq_iff]
      constructor <;> norm_num
    rw [h2]; rfl
  rw [arange, if_pos (by norm_num), hc]
  rw [show List.range 2 = [0, 1] from rfl]
  norm_num

/-- Helper: evaluation of the seed call building the pure-water EOS over
P = [0, 10], T = [0, 5, 10] from an empty cache. -/
theorem oceanSeedCall_eval :
    GetOceanEOS emptyEOScache "PureH2O" 0 [0, 10] [0, 5, 10]
      none none none = .ok ⟨scnCache1, scnEntry1, true⟩ := by
  have hchk := CheckIfEOSLoaded_fresh emptyEOScache scnLabel
    [0, 10] [0, 5, 10] rfl
  rw [listMin_0_10, listMax_0_10, meanDiff_0_10, listMin_0_5_10,
    listMax_0_5_10, meanDiff_0_5_10] at hchk
  simp only [GetOceanEOS, scnLabel] at hchk ⊢
  simp only [hchk, buildOceanEOS, Option.getD_some, Bool.false_eq_true,
    if_false]
  rw [if_pos (by tauto)]
  rw [listMin_0_10, listMax_0_10, meanDiff_0_10, listMin_0_5_10,
    listMax_0_5_10, meanDiff_0_5_10]
  rfl


/-- Helper: the wide request P = [0, 15] against the seeded cache misses the
exact-range check, fails containment (15 exceeds the stored maximum 10), and
requests a union rebuild whose regridded arrays stop short of the requested
maxima. -/
theorem oceanWideChk1_eval :
    CheckIfEOSLoaded scnCache1 scnLabel [0, 15] [0, 5, 10] =
      ⟨false, .bounds 0 10 0 5, some [0, 10], some [0, 5]⟩ := by
  have hl : alookup scnCache1.loaded scnLabel = some scnEntry1 := rfl
  have hr : alookup scnCache1.ranges scnLabel =
    some (.full 0 10 10 0 10 5) := rfl
  simp only [CheckIfEOSLoaded, hl, hr, scnEntry1, listMin_0_15,
    listMax_0_15, meanDiff_0_15, listMin_0_5_10, listMax_0_5_10,
    meanDiff_0_5_10]
  rw [if_neg (by norm_num), if_pos (by norm_num)]
  have hm1 : min (0 : ℚ) 0 = 0 := by norm_num
  have hm2 : max (15 : ℚ) 10 = 15 := by norm_num
  have hm3 : min (15 : ℚ) 10 = 10 := by norm_num
  have hm4 : max (10 : ℚ) 10 = 10 := by norm_num
  have hm5 : min (5 : ℚ) 5 = 5 := by norm_num
  rw [hm1, hm2, hm3, hm4, hm5, arange_0_15_10, arange_0_10_5,
    listMin_0_10, listMax_0_10, listMin_0_5, listMax_0_5]

/-- Helper: evaluation of the first wide call: a union rebuild replaces the
cache entry with one whose pressure bound stops at 10 < 15. -/
theorem oceanWideCall1_eval :
    GetOceanEOS scnCache1 "PureH2O" 0 [0, 15] [0, 5, 10] none none none =
      .ok ⟨scnCache2, scnEntry2, true⟩ := by
  have hchk := oceanWideChk1_eval
  simp only [scnLabel] at hchk
  simp only [GetOceanEOS, hchk, buildOceanEOS, Option.getD_some,
    Bool.false_eq_true, if_false]
  rw [if_pos (by tauto)]
  rw [listMin_0_10, listMax_0_10, meanDiff_0_10, listMin_0_5,
    listMax_0_5, meanDiff_0_5]
  rfl

/-- Helper: the second, identical wide request again fails the exact-range
check (a bounds-only label was stored) and again fails containment, because
the stored maximum 10 is below the requested 15: another rebuild with the
same truncated arrays. -/
theorem oceanWideChk2_eval :
    CheckIfEOSLoaded scnCache2 scnLabel [0, 15] [0, 5, 10] =
      ⟨false, .bounds 0 10 0 5, some [0, 10], some [0, 5]⟩ := by
  have hl : alookup scnCache2.loaded scnLabel = some scnEntry2 := rfl
  have hr : alookup scnCache2.ranges scnLabel =
    some (.bounds 0 10 0 5) := rfl
  simp only [CheckIfEOSLoaded, hl, hr, scnEntry2, listMin_0_15,
    listMax_0_15, meanDiff_0_15, listMin_0_5_10, listMax_0_5_10,
    meanDiff_0_5_10]
  rw [if_neg (by simp), if_pos (by norm_num)]
  have hm1 : min (0 : ℚ) 0 = 0 := by norm_num
  have hm2 : max (15 : ℚ) 10 = 15 := by norm_num
  have hm3 : min (15 : ℚ) 10 = 10 := by norm_num
  have hm4 : max (10 : ℚ) 5 = 10 := by norm_num
  have hm5 : min (5 : ℚ) 5 = 5 := by norm_num
  rw [hm1, hm2, hm3, hm4, hm5, arange_0_15_10, arange_0_10_5,
    listMin_0_10, listMax_0_10, listMin_0_5, listMax_0_5]

/-- Helper: evaluation of the second wide call: an identical request is
reconstructed again rather than reusing the cached instance. -/
theorem oceanWideCall2_eval :
    GetOceanEOS scnCache2 "PureH2O" 0 [0, 15] [0, 5, 10] none none none =
      .ok ⟨scnCache3, scnEntry3, true⟩ := by
  have hchk := oceanWideChk2_eval
  simp only [scnLabel] at hchk
  simp only [GetOceanEOS, hchk, buildOceanEOS, Option.getD_some,
    Bool.false_eq_true, if_false]
  rw [if_pos (by tauto)]
  rw [listMin_0_10, listMax_0_10, meanDiff_0_10, listMin_0_5,
    listMax_0_5, meanDiff_0_5]
  rfl

/-- C2 (code bug evaluation): after a union rebuild, requesting the same
label with the identical range descriptor twice does NOT return the cached
instance: both wide requests reconstruct the EOS (`rebuilt = true`, distinct
construction ids, cache replaced), because `np.arange` excludes its stop
value so the rebuilt entry's `Pmax` (10) remains below the requested maximum
(15) — contradicting the code's own comment that the union includes the
outer bounds, and the claim that an identical repeat request reuses the
cached EOS. -/
theorem GetOceanEOS_identical_request_rebuilds :
    GetOceanEOS emptyEOScache "PureH2O" 0 [0, 10] [0, 5, 10]
        none none none = .ok ⟨scnCache1, scnEntry1, true⟩ ∧
    GetOceanEOS scnCache1 "PureH2O" 0 [0, 15] [0, 5, 10] none none none =
      .ok ⟨scnCache2, scnEntry2, true⟩ ∧
    GetOceanEOS scnCache2 "PureH2O" 0 [0, 15] [0, 5, 10] none none none =
      .ok ⟨scnCache3, scnEntry3, true⟩ ∧
    scnEntry3.eid ≠ scnEntry2.eid ∧
    scnEntry2.Pmax < listMax [0, 15] :=
  ⟨oceanSeedCall_eval, oceanWideCall1_eval, oceanWideCall2_eval,
   by decide, by rw [listMax_0_15]; norm_num [scnEntry2]⟩

end PlanetProfile
